import Mathlib

/-!
Verification of the static code-metrics extractor of `SDP_ELTPipeline`
(`pymetrix.py`) and of the labeling step of `sdp_elt_data_pipeline.py`.

The Python AST is embedded as a rose tree of tagged nodes (`PyNode` over
`Kind`).  Every node kind the extractor inspects gets its own tag; payloads
carry the data the extractor reads (function name and positional-parameter
names, class name, referenced identifier).  Notes on fidelity:

* `ast.walk` traverses breadth-first; every use in the source is a count or a
  sum over the set of reachable nodes, so the embedding's depth-first `walk`
  is count-equivalent.
* A `BoolOp` node's operand expressions (`n.values`) are its children here;
  the `And`/`Or` operator tag (an `ast.boolop` leaf carrying no data used by
  the extractor) is dropped.
* A `Call` node's callee (`n.func`) is its first child, followed by the
  argument expressions.
* `FunctionDef`/`AsyncFunctionDef` children are the body statements; the
  positional parameter names (`f.args.args`) are payload.
* Machine floats of the Python source are modelled as exact rationals; the
  two-decimal `round` is modelled ties-to-even on rationals
  (float representation error is not modelled; no claim depends on it).
-/

inductive Kind where
  | module
  | functionDef (name : String) (params : List String)
  | asyncFunctionDef (name : String) (params : List String)
  | classDef (name : String)
  | ifStmt
  | forStmt
  | whileStmt
  | tryStmt
  | withStmt
  | boolOp
  | ifExp
  | callExpr
  | raiseStmt
  | exceptHandler
  | nameExpr (id : String)
  | attributeExpr (attr : String)
  | exprStmt
  | passStmt
  | constantExpr
deriving DecidableEq

inductive PyNode where
  | mk (kind : Kind) (children : List PyNode)

def PyNode.kind : PyNode → Kind
  | .mk k _ => k

def PyNode.children : PyNode → List PyNode
  | .mk _ cs => cs

mutual

/-- Models `ast.walk(tree)`: every node of the tree (traversal order is
irrelevant to the extractor, which only counts and sums over the result). -/
def walk : PyNode → List PyNode
  | .mk k cs => .mk k cs :: walkList cs

def walkList : List PyNode → List PyNode
  | [] => []
  | c :: cs => walk c ++ walkList cs

end

/-- Induction principle for the nested inductive `PyNode`. -/
theorem PyNode.ind (P : PyNode → Prop)
    (h : ∀ k cs, (∀ c ∈ cs, P c) → P (PyNode.mk k cs)) : ∀ t, P t
  | PyNode.mk k cs => h k cs (fun c _ => PyNode.ind P h c)

/-- Models `isinstance(n, DECISION_NODES)` for
`DECISION_NODES = (ast.If, ast.For, ast.While, ast.Try, ast.With, ast.BoolOp,
ast.IfExp)` (pymetrix.py lines 7-15). -/
def PyNode.isDecision (n : PyNode) : Bool :=
  match n.kind with
  | .ifStmt | .forStmt | .whileStmt | .tryStmt | .withStmt | .boolOp | .ifExp => true
  | _ => false

def PyNode.isBoolOp (n : PyNode) : Bool :=
  match n.kind with
  | .boolOp => true
  | _ => false

def PyNode.isFuncDef (n : PyNode) : Bool :=
  match n.kind with
  | .functionDef _ _ => true
  | _ => false

def PyNode.isClassDef (n : PyNode) : Bool :=
  match n.kind with
  | .classDef _ => true
  | _ => false

def PyNode.isRaise (n : PyNode) : Bool :=
  match n.kind with
  | .raiseStmt => true
  | _ => false

def PyNode.isExceptHandler (n : PyNode) : Bool :=
  match n.kind with
  | .exceptHandler => true
  | _ => false

def PyNode.isCall (n : PyNode) : Bool :=
  match n.kind with
  | .callExpr => true
  | _ => false

/-- Models `len(f.args.args)` for a function-definition node (0 for any other). -/
def PyNode.numParams (n : PyNode) : ℕ :=
  match n.kind with
  | .functionDef _ ps => ps.length
  | _ => 0

/-- Models `f.name` for a function-definition node. -/
def PyNode.defName (n : PyNode) : Option String :=
  match n.kind with
  | .functionDef nm _ => some nm
  | _ => none

/-- For a `BoolOp` node, `len(n.values)`: its operand expressions are exactly
its children in this embedding. -/
def PyNode.numValues (n : PyNode) : ℕ :=
  n.children.length

/-- pymetrix.py lines 17-25: base decision count plus one extra per additional
`BoolOp` operand, plus the McCabe `+ 1`. -/
def count_decision_points (tree : PyNode) : ℕ :=
  let cnt := ((walk tree).map (fun n => if n.isDecision then 1 else 0)).sum
  let cnt2 := cnt + (((walk tree).filter (fun n => n.isBoolOp)).map
      (fun n => n.numValues - 1)).sum
  cnt2 + 1

mutual

/-- pymetrix.py lines 32-36: `visit(node, depth)` returns the maximum of
`depth` and the recursive results on children at `depth + 1`. -/
def visit : PyNode → ℕ → ℕ
  | .mk _ cs, depth => (visitList cs (depth + 1)).foldl max depth

def visitList : List PyNode → ℕ → List ℕ
  | [], _ => []
  | c :: cs, d => visit c d :: visitList cs d

end

/-- pymetrix.py lines 27-38. -/
def max_ast_depth (tree : PyNode) : ℕ :=
  visit tree 0

/-- Token kinds the extractor distinguishes (`tokenize.COMMENT` vs the rest). -/
inductive TokKind where
  | comment
  | newline
  | other
deriving DecidableEq

/-- A lexical token as produced by the `tokenize` collaborator. -/
structure Tok where
  kind : TokKind
deriving DecidableEq

/-- ASCII whitespace stripped by Python's `str.strip()` (the full Unicode
whitespace set of Python is not needed by any claim). -/
def isPySpace (c : Char) : Bool :=
  c = ' ' ∨ c = '\t' ∨ c = '\n' ∨ c = '\r' ∨ c = '\x0b' ∨ c = '\x0c'

def stripChars (cs : List Char) : List Char :=
  ((cs.dropWhile isPySpace).reverse.dropWhile isPySpace).reverse

/-- Models Python's `str.strip()` with no argument. -/
def pyStrip (s : String) : String :=
  String.mk (stripChars s.toList)

/-- The line-boundary characters of Python's `str.splitlines()`.  The file is
read in text mode with universal newlines, so the decoded text this embedding
receives contains no CR and the CRLF merge of `splitlines` cannot arise. -/
def isLineBreakChar (c : Char) : Bool :=
  c = '\n' ∨ c = '\r' ∨ c = '\x0b' ∨ c = '\x0c' ∨ c = '\x1c' ∨ c = '\x1d' ∨
    c = '\x1e' ∨ c = '\x85' ∨ c = '\u2028' ∨ c = '\u2029'

def splitLinesAux : List Char → List Char → List String
  | [], [] => []
  | [], acc => [String.mk acc.reverse]
  | c :: cs, acc =>
    if isLineBreakChar c then String.mk acc.reverse :: splitLinesAux cs []
    else splitLinesAux cs (c :: acc)

/-- Models Python's `src.splitlines()` on the decoded text: a line ends at any
`splitlines` boundary character, terminators are not kept, and a trailing
terminator produces no final empty line. -/
def pySplitlines (src : List Char) : List String :=
  splitLinesAux src []

def fileLinesAux : List Char → List Char → List String
  | [], [] => []
  | [], acc => [String.mk acc.reverse]
  | c :: cs, acc =>
    if c = '\n' then String.mk (c :: acc).reverse :: fileLinesAux cs []
    else fileLinesAux cs (c :: acc)

/-- Models Python's `for line in f` on the same decoded text: lines split only
at `\n` (universal newlines already translated), each line keeping its
terminating `\n`.  This decomposition differs from `pySplitlines` exactly on
the other `splitlines` boundary characters. -/
def fileLines (src : List Char) : List String :=
  fileLinesAux src []

/-- pymetrix.py lines 40-60: one pass over the token stream counting comment
tokens, one independent pass over the raw lines counting the lines that are
empty after stripping.  The two `open` calls read the same file; its token
stream and a line list are the two arguments here — the caller `analyze_tree`
passes the file-iteration lines `fileLines src` for the blank pass. -/
def count_comments_and_blanks (toks : List Tok) (lines : List String) : ℕ × ℕ :=
  let comments := toks.foldl (fun c t => if t.kind == TokKind.comment then c + 1 else c) 0
  let blanks := lines.foldl (fun b l => if pyStrip l == "" then b + 1 else b) 0
  (comments, blanks)

/-- pymetrix.py line 72: `sum(1 for l in src.splitlines() if l.strip())`,
as a function of the already-split line list — the caller `analyze_tree`
passes `pySplitlines src`. -/
def loc_count (lines : List String) : ℕ :=
  (lines.filter (fun l => !(pyStrip l == ""))).length

/-- pymetrix.py line 76: `[n for n in ast.walk(tree) if isinstance(n, ast.FunctionDef)]`. -/
def walkFuncs (tree : PyNode) : List PyNode :=
  (walk tree).filter (fun n => n.isFuncDef)

/-- pymetrix.py line 77: the `ClassDef` nodes of the walk. -/
def walkClasses (tree : PyNode) : List PyNode :=
  (walk tree).filter (fun n => n.isClassDef)

/-- pymetrix.py line 80. -/
def n_funcs (tree : PyNode) : ℕ :=
  (walkFuncs tree).length

/-- pymetrix.py line 81. -/
def n_classes (tree : PyNode) : ℕ :=
  (walkClasses tree).length

/-- pymetrix.py line 83, numerator: `sum(len(f.args.args) for f in funcs)`. -/
def params_sum (tree : PyNode) : ℕ :=
  ((walkFuncs tree).map (fun f => f.numParams)).sum

/-- pymetrix.py line 83: `sum(...) / n_funcs if n_funcs else 0.0`. -/
def avg_params (tree : PyNode) : ℚ :=
  if n_funcs tree ≠ 0 then (params_sum tree : ℚ) / (n_funcs tree : ℚ) else 0

/-- pymetrix.py line 86: `sum(isinstance(n, ast.FunctionDef) for n in cls.body)`
for one class node (`cls.body` is the list of direct children). -/
def methodCount (cls : PyNode) : ℕ :=
  (cls.children.map (fun n => if n.isFuncDef then 1 else 0)).sum

/-- pymetrix.py lines 85-88. -/
def methods_per_class (tree : PyNode) : List ℕ :=
  (walkClasses tree).map methodCount

/-- pymetrix.py line 90. -/
def avg_methods (tree : PyNode) : ℚ :=
  if n_classes tree ≠ 0
    then ((methods_per_class tree).sum : ℚ) / (n_classes tree : ℚ) else 0

/-- pymetrix.py line 93. -/
def raise_count (tree : PyNode) : ℕ :=
  ((walk tree).map (fun n => if n.isRaise then 1 else 0)).sum

/-- pymetrix.py line 94. -/
def except_count (tree : PyNode) : ℕ :=
  ((walk tree).map (fun n => if n.isExceptHandler then 1 else 0)).sum

/-- pymetrix.py line 97: `{f.name for f in funcs}` (a list with the same
membership as the Python set). -/
def definedFuncNames (tree : PyNode) : List String :=
  (walkFuncs tree).filterMap (fun f => f.defName)

/-- pymetrix.py line 102: `isinstance(func, ast.Name) and func.id in defined_funcs`,
where `func = n.func` is the first child of the call node. -/
def isInternalCall (defined : List String) (n : PyNode) : Bool :=
  match n.children with
  | f :: _ =>
    match f.kind with
    | .nameExpr id => decide (id ∈ defined)
    | _ => false
  | [] => false

/-- pymetrix.py lines 97-105: the `(n_internal, n_external)` counting loop.
(The source computes these two counters and then never writes them into the
returned record; the loop itself is what the spec describes.) -/
def count_internal_external (tree : PyNode) : ℕ × ℕ :=
  (walk tree).foldl
    (fun p n =>
      if n.isCall then
        if isInternalCall (definedFuncNames tree) n then (p.1 + 1, p.2) else (p.1, p.2 + 1)
      else p)
    (0, 0)

/-- Nearest integer with ties to even, on exact rationals: the value of
Python's `round(q)` ignoring binary-float representation error. -/
def roundHalfEven (q : ℚ) : ℤ :=
  let f := ⌊q⌋
  let r := q - (f : ℚ)
  if r < 1/2 then f
  else if 1/2 < r then f + 1
  else if f % 2 = 0 then f else f + 1

/-- Python's `round(q, 2)` on exact rationals. -/
def round2 (q : ℚ) : ℚ :=
  ((roundHalfEven (q * 100) : ℤ) : ℚ) / 100

/-- The per-file metrics record returned by `analyze_file`
(pymetrix.py lines 112-126). -/
structure Record where
  FILE : String
  LOC : ℕ
  COM : ℕ
  BLK : ℕ
  NOF : ℕ
  NOC : ℕ
  APF : ℚ
  AMC : ℚ
  NER : ℕ
  NEH : ℕ
  CYC : ℕ
  MAD : ℕ
  BUG : ℕ
deriving DecidableEq

/-- pymetrix.py lines 62-126 after a successful `ast.parse`: the record is
assembled from the parsed tree, the decoded character content `src` of the
file, and its token stream.  `LOC` scans `src.splitlines()` (line 72) while
`BLK` scans the file again with `for line in f` (lines 55-58); the two passes
decompose the same text differently when it contains `splitlines` boundary
characters other than `\n`, so each is modelled with its own splitter. -/
def analyze_tree (path : String) (src : List Char) (toks : List Tok)
    (tree : PyNode) : Record :=
  { FILE := path
    LOC := loc_count (pySplitlines src)
    COM := (count_comments_and_blanks toks (fileLines src)).1
    BLK := (count_comments_and_blanks toks (fileLines src)).2
    NOF := n_funcs tree
    NOC := n_classes tree
    APF := round2 (avg_params tree)
    AMC := round2 (avg_methods tree)
    NER := raise_count tree
    NEH := except_count tree
    CYC := count_decision_points tree
    MAD := max_ast_depth tree
    BUG := 0 }

/-- A file on disk as the scanner sees it: its path, the result of
`ast.parse` on its text (`none` models a raised `SyntaxError`; a decode
failure in `tokenize` behaves the same way at the scan boundary), its decoded
character content, and its token stream. -/
structure PyFile where
  name : String
  parsed : Option PyNode
  src : List Char
  toks : List Tok

/-- pymetrix.py lines 62-126: `ast.parse` raises on a malformed file and the
exception leaves `analyze_file`; otherwise the metrics record is returned. -/
def analyze_file (f : PyFile) : Except String Record :=
  match f.parsed with
  | none => Except.error "SyntaxError"
  | some t => Except.ok (analyze_tree f.name f.src f.toks t)

/-- Python's `name.endswith(suffix)`. -/
def endswith (s suffix : String) : Bool :=
  suffix.toList.isSuffixOf s.toList

/-- pymetrix.py lines 128-136: the generator walks the file list, yields one
record per `.py` file, and has no handler around `analyze_file` — the records
yielded before an exception are produced, the exception propagates and the
remaining files are never visited.  The result models (records yielded,
propagated exception if any); `os.walk` is flattened into one file list with
joined paths. -/
def scan_directory : List PyFile → List Record × Option String
  | [] => ([], none)
  | f :: rest =>
    if endswith f.name ".py" then
      match analyze_file f with
      | Except.error e => ([], some e)
      | Except.ok r =>
        let p := scan_directory rest
        (r :: p.1, p.2)
    else scan_directory rest

/-- Models the row update `BUG = 1 if FILE in buggy_files_full_path else 0` applied to
every row (sdp_elt_data_pipeline.py lines 211-212). -/
def applyLabel (rows : List Record) (paths : List String) : List Record :=
  rows.map (fun r => { r with BUG := if r.FILE ∈ paths then 1 else 0 })

/-- sdp_elt_data_pipeline.py lines 207-212: the loop appends
`local_repo_path + buggy_files[i]` to the accumulated full-path list and then
(inside the same iteration) relabels every row against the list so far. -/
def labelLoop (repo : String) : List String → List String → List Record → List Record
  | [], _, rows => rows
  | b :: bs, acc, rows =>
    let acc2 := acc ++ [repo ++ b]
    labelLoop repo bs acc2 (applyLabel rows acc2)

/-- The labeling step of `extract_code_metrics_and_labeling`
(sdp_elt_data_pipeline.py lines 207-212), applied to the scanned records. -/
def extract_labeling (repo : String) (rows : List Record)
    (buggy_files : List String) : List Record :=
  labelLoop repo buggy_files [] rows

/-! ## Spec-side definitions (written from the spec's words, for comparison) -/

/-- Spec §4.4: the number of nodes whose kind is a decision-point kind. -/
def specDecisionCount (tree : PyNode) : ℕ :=
  ((walk tree).filter PyNode.isDecision).length

/-- Spec §4.4: the sum over boolean-combination nodes of `k - 1`, `k` the
operand count. -/
def specBoolExtra (tree : PyNode) : ℕ :=
  (((walk tree).filter (fun n => n.isBoolOp)).map (fun n => n.numValues - 1)).sum

mutual

/-- Spec §4.3: all nodes paired with their depth, the root at depth `d` and a
child's depth its parent's depth plus 1. -/
def nodesWithDepth : PyNode → ℕ → List (PyNode × ℕ)
  | .mk k cs, d => (.mk k cs, d) :: nodesWithDepthList cs (d + 1)

def nodesWithDepthList : List PyNode → ℕ → List (PyNode × ℕ)
  | [], _ => []
  | c :: cs, d => nodesWithDepth c d ++ nodesWithDepthList cs d

end

/-- Spec §4.3: the maximum depth observed over all nodes, the root at depth 0
(0 for a root with no children); this equals the length of the longest
root-to-leaf path. -/
def specMaxTreeDepth (tree : PyNode) : ℕ :=
  ((nodesWithDepth tree 0).map Prod.snd).foldl max 0

/-- Claim C2's notion of the internal-name set: names of the function
definitions that are direct children of the root (module scope, top level). -/
def moduleScopeFuncNames (tree : PyNode) : List String :=
  tree.children.filterMap (fun n => n.defName)

/-- The number of calls the claim classifies internal: bare-name callee whose
name is defined at module scope (top level). -/
def claimInternalCount (tree : PyNode) : ℕ :=
  ((walk tree).filter
    (fun n => n.isCall && isInternalCall (moduleScopeFuncNames tree) n)).length

/-- The number of calls with a bare-name callee whose name is the name of a
function definition anywhere in the file. -/
def specInternalCount (tree : PyNode) : ℕ :=
  ((walk tree).filter
    (fun n => n.isCall && isInternalCall (definedFuncNames tree) n)).length

/-- The number of all other calls. -/
def specExternalCount (tree : PyNode) : ℕ :=
  ((walk tree).filter
    (fun n => n.isCall && !(isInternalCall (definedFuncNames tree) n))).length

/-- What a scan that skips unparseable files would have to produce, restricted
to the part the amended claim C1 needs: the records of the `.py` files up to
(excluding) the first unparseable one, and the propagated error if one
exists. -/
def scanUpToFirstFailure (files : List PyFile) : List Record × Option String :=
  let pys := files.filter (fun f => endswith f.name ".py")
  ((pys.takeWhile (fun f => f.parsed.isSome)).filterMap
      (fun f => (analyze_file f).toOption),
   if (pys.dropWhile (fun f => f.parsed.isSome)).isEmpty then none
   else some "SyntaxError")

/-! ## Helper lemmas -/

theorem sum_map_ite_one {α : Type} (l : List α) (p : α → Bool) :
    (l.map (fun n => if p n then (1 : ℕ) else 0)).sum = (l.filter p).length := by
  induction l with
  | nil => rfl
  | cons c l ih =>
    by_cases h : p c <;> simp [List.filter_cons, h, ih] <;> omega

theorem foldl_count_ite {α : Type} (l : List α) (p : α → Bool) (a : ℕ) :
    l.foldl (fun b x => if p x then b + 1 else b) a = a + (l.filter p).length := by
  induction l generalizing a with
  | nil => simp
  | cons c l ih =>
    by_cases h : p c <;> simp [List.filter_cons, h, ih] <;> omega

theorem filter_length_partition {α : Type} (l : List α) (p : α → Bool) :
    (l.filter (fun x => ! p x)).length + (l.filter p).length = l.length := by
  induction l with
  | nil => rfl
  | cons c l ih =>
    by_cases h : p c <;> simp [List.filter_cons, h] <;> omega

theorem foldl_max_init (l : List ℕ) (a : ℕ) :
    l.foldl max a = max a (l.foldl max 0) := by
  induction l generalizing a with
  | nil => simp
  | cons c l ih =>
    simp only [List.foldl_cons]
    rw [ih (max a c), ih (max 0 c)]
    omega

theorem visitList_eq_map (cs : List PyNode) (d : ℕ) :
    visitList cs d = cs.map (fun c => visit c d) := by
  induction cs with
  | nil => rfl
  | cons c cs ih => simp [visitList, ih]

theorem walkList_filter_length (p : PyNode → Bool) (cs : List PyNode) :
    ((walkList cs).filter p).length
      = (cs.map (fun c => ((walk c).filter p).length)).sum := by
  induction cs with
  | nil => rfl
  | cons c cs ih => simp [walkList, ih]

theorem round2_zero : round2 0 = 0 := by
  norm_num [round2, roundHalfEven]

theorem stripChars_eq_nil_iff (cs : List Char) :
    stripChars cs = [] ↔ ∀ c ∈ cs, isPySpace c := by
  unfold stripChars
  constructor
  · intro h c hc
    rw [List.reverse_eq_nil_iff, List.dropWhile_eq_nil_iff] at h
    have h' : ∀ x ∈ cs.dropWhile isPySpace, isPySpace x := by
      intro x hx
      exact h x (by simpa using hx)
    rw [← List.takeWhile_append_dropWhile isPySpace cs] at hc
    rcases List.mem_append.1 hc with h1 | h1
    · exact List.mem_takeWhile_imp h1
    · exact h' c h1
  · intro h
    have h1 : cs.dropWhile isPySpace = [] := List.dropWhile_eq_nil_iff.2 h
    simp [h1]

theorem pyStrip_eq_empty_iff (s : String) :
    pyStrip s = "" ↔ ∀ c ∈ s.toList, isPySpace c := by
  rw [← stripChars_eq_nil_iff s.toList]
  constructor
  · intro h
    have := congrArg String.data h
    simpa [pyStrip] using this
  · intro h
    show String.mk (stripChars s.toList) = ""
    rw [h]

theorem visit_eq_depths (t : PyNode) :
    ∀ d, visit t d = ((nodesWithDepth t d).map Prod.snd).foldl max 0 := by
  induction t using PyNode.ind with
  | h k cs ih =>
    intro d
    have aux : ∀ (cs' : List PyNode),
        (∀ c ∈ cs', ∀ d',
          visit c d' = ((nodesWithDepth c d').map Prod.snd).foldl max 0) →
        ∀ (d' a : ℕ),
          (visitList cs' d').foldl max a
            = ((nodesWithDepthList cs' d').map Prod.snd).foldl max a := by
      intro cs'
      induction cs' with
      | nil => intro _ d' a; rfl
      | cons c cs'' ihl =>
        intro hmem d' a
        simp only [visitList, List.foldl_cons, nodesWithDepthList, List.map_append,
          List.foldl_append]
        rw [ihl (fun x hx => hmem x (List.mem_cons_of_mem _ hx)) d']
        congr 1
        rw [hmem c (List.mem_cons_self _ _) d', ← foldl_max_init]
    simp only [visit, specMaxTreeDepth, nodesWithDepth, List.map_cons, List.foldl_cons,
      Nat.zero_max]
    exact aux cs ih (d + 1) d

theorem foldl_classify (df : List String) (l : List PyNode) (a b : ℕ) :
    l.foldl
      (fun p n =>
        if n.isCall then
          if isInternalCall df n then (p.1 + 1, p.2) else (p.1, p.2 + 1)
        else p) (a, b)
      = (a + (l.filter (fun n => n.isCall && isInternalCall df n)).length,
         b + (l.filter (fun n => n.isCall && !(isInternalCall df n))).length) := by
  induction l generalizing a b with
  | nil => simp
  | cons n l ih =>
    by_cases h1 : n.isCall
    · by_cases h2 : isInternalCall df n <;>
        simp [List.filter_cons, h1, h2, ih] <;> omega
    · simp [List.filter_cons, h1, ih]

theorem applyLabel_applyLabel (rows : List Record) (p q : List String) :
    applyLabel (applyLabel rows p) q = applyLabel rows q := by
  simp only [applyLabel, List.map_map]
  apply List.map_congr_left
  intro r _
  cases r
  rfl

theorem labelLoop_ne_nil (repo : String) (bs : List String) :
    ∀ (acc : List String) (rows : List Record), bs ≠ [] →
      labelLoop repo bs acc rows
        = applyLabel rows (acc ++ bs.map (fun b => repo ++ b)) := by
  induction bs with
  | nil => intro _ _ h; exact absurd rfl h
  | cons b bs ih =>
    intro acc rows _
    by_cases hbs : bs = []
    · subst hbs
      simp [labelLoop]
    · simp only [labelLoop]
      rw [ih _ _ hbs, applyLabel_applyLabel]
      simp

theorem walkFilter_module_perm (p : PyNode → Bool) (k : Kind)
    (hp : ∀ cs cs', p (PyNode.mk k cs) = p (PyNode.mk k cs'))
    (body body' : List PyNode) (h : body.Perm body') :
    ((walk (PyNode.mk k body)).filter p).length
      = ((walk (PyNode.mk k body')).filter p).length := by
  simp only [walk, List.filter_cons]
  have hsum : ((walkList body).filter p).length = ((walkList body').filter p).length := by
    rw [walkList_filter_length, walkList_filter_length]
    exact (h.map (fun c => ((walk c).filter p).length)).sum_eq
  rw [hp body body']
  by_cases hc : p (PyNode.mk k body') <;> simp [hc, hsum]

/-! ## Concrete inputs used by counterexamples and witnesses -/

/-- The file `if a and b and c:` with a `pass` body: one `If` node over one
`BoolOp` node with the three operands `a`, `b`, `c`. -/
def ifAndTree : PyNode :=
  PyNode.mk .module
    [ PyNode.mk .ifStmt
        [ PyNode.mk .boolOp
            [PyNode.mk (.nameExpr "a") [], PyNode.mk (.nameExpr "b") [],
             PyNode.mk (.nameExpr "c") []],
          PyNode.mk .passStmt [] ] ]

/-- A file whose only definition is a method: `class C:` with `def m(self)`,
followed by the top-level call `m()`. -/
def methodCallTree : PyNode :=
  PyNode.mk .module
    [ PyNode.mk (.classDef "C")
        [PyNode.mk (.functionDef "m" ["self"]) [PyNode.mk .passStmt []]],
      PyNode.mk .exprStmt [PyNode.mk .callExpr [PyNode.mk (.nameExpr "m") []]] ]

/-- The file `def f(): pass` — one function, zero parameters. -/
def oneParamlessFuncTree : PyNode :=
  PyNode.mk .module [PyNode.mk (.functionDef "f" []) [PyNode.mk .passStmt []]]

/-- An empty module. -/
def emptyModuleTree : PyNode :=
  PyNode.mk .module []

/-- A `.py` file whose text does not parse (`ast.parse` raises). -/
def fileBad : PyFile :=
  { name := "bad.py", parsed := none, src := [], toks := [] }

/-- A `.py` file that parses fine. -/
def fileGood : PyFile :=
  { name := "good.py", parsed := some (PyNode.mk .module []), src := [], toks := [] }

/-! ## Claim theorems -/

/-- C3: for every successfully parsed file, cyclomatic complexity equals
1 plus the number of decision-point nodes plus, for every boolean-combination
node with `k` operands, `k - 1`; and the file `if a and b and c:` with a body
yields complexity 5. -/
theorem cyclomatic_complexity_decomposition :
    (∀ tree, count_decision_points tree
        = 1 + specDecisionCount tree + specBoolExtra tree)
    ∧ count_decision_points ifAndTree = 5 := by
  constructor
  · intro tree
    simp only [count_decision_points, specDecisionCount, specBoolExtra, sum_map_ite_one]
    omega
  · decide

/-- C5: `max_ast_depth` equals the length of the longest root-to-leaf path
(the maximum node depth with the root at depth 0), and a root with no
children yields 0. -/
theorem max_ast_depth_eq_longest_path :
    (∀ tree, max_ast_depth tree = specMaxTreeDepth tree)
    ∧ ∀ k, max_ast_depth (PyNode.mk k []) = 0 := by
  constructor
  · intro tree
    exact visit_eq_depths tree 0
  · intro k
    rfl

/-- C7: the blank counter counts exactly the lines that are empty after
stripping, the comment counter counts exactly the comment tokens, a line
containing a `#` (in particular a comment-only line) is never blank, and a
line of whitespace only is always blank. -/
theorem comment_blank_line_counting (toks : List Tok) (lines : List String) :
    (count_comments_and_blanks toks lines).1
        = (toks.filter (fun t => t.kind == TokKind.comment)).length
    ∧ (count_comments_and_blanks toks lines).2
        = (lines.filter (fun l => pyStrip l == "")).length
    ∧ (∀ l : String, '#' ∈ l.toList → ¬ pyStrip l = "")
    ∧ (∀ l : String, (∀ c ∈ l.toList, isPySpace c) → pyStrip l = "") := by
  refine ⟨?_, ?_, ?_, ?_⟩
  · simp only [count_comments_and_blanks]
    rw [foldl_count_ite]
    simp
  · simp only [count_comments_and_blanks]
    rw [foldl_count_ite]
    simp
  · intro l hl h
    have := (pyStrip_eq_empty_iff l).1 h '#' hl
    simp [isPySpace] at this
  · intro l h
    exact (pyStrip_eq_empty_iff l).2 h

/-- Witness for C7 at concrete inputs: the comment-only line `"# c"` is not
blank, the whitespace line `"  "` is blank. -/
theorem comment_blank_line_counting_witness :
    ("# c".toList.contains '#' = true) ∧ ¬ pyStrip "# c" = ""
    ∧ ("  ".toList.all isPySpace = true) ∧ pyStrip "  " = "" := by
  refine ⟨by decide, (comment_blank_line_counting [] []).2.2.1 "# c" (by decide),
    by decide, (comment_blank_line_counting [] []).2.2.2 "  " (by decide)⟩

/-- Right-trimming removes a trailing newline: appending `\n` does not change
the stripped value. -/
theorem stripChars_append_newline (cs : List Char) :
    stripChars (cs ++ ['\n']) = stripChars cs := by
  induction cs with
  | nil => decide
  | cons c cs ih =>
    by_cases hc : isPySpace c
    · simp only [stripChars, List.cons_append, List.dropWhile_cons, hc, if_true] at ih ⊢
      exact ih
    · have hn : isPySpace '\n' = true := by decide
      have h1 : List.dropWhile isPySpace (c :: (cs ++ ['\n'])) = c :: (cs ++ ['\n']) := by
        simp [List.dropWhile_cons, hc]
      have h2 : List.dropWhile isPySpace (c :: cs) = c :: cs := by
        simp [List.dropWhile_cons, hc]
      simp only [stripChars, List.cons_append, h1, h2]
      rw [List.reverse_cons, List.reverse_cons, List.reverse_append]
      simp [List.reverse_singleton, List.singleton_append, List.dropWhile_cons, hn,
        List.append_assoc]

/-- On text whose only line-break character is `\n`, the file-iteration
decomposition and the `splitlines` decomposition agree in line count and in
the number of blank lines (the file-iteration lines keep their trailing `\n`,
which stripping removes). -/
theorem fileLinesAux_matches_splitLinesAux (src : List Char) :
    ∀ acc, (∀ c ∈ src, isLineBreakChar c → c = '\n') →
      (fileLinesAux src acc).length = (splitLinesAux src acc).length
      ∧ ((fileLinesAux src acc).filter (fun l => pyStrip l == "")).length
          = ((splitLinesAux src acc).filter (fun l => pyStrip l == "")).length := by
  induction src with
  | nil =>
    intro acc _
    cases acc with
    | nil => exact ⟨rfl, rfl⟩
    | cons a as => exact ⟨rfl, rfl⟩
  | cons c cs ih =>
    intro acc h
    have hih1 := ih [] (fun x hx hb => h x (List.mem_cons_of_mem _ hx) hb)
    have hih2 := ih (c :: acc) (fun x hx hb => h x (List.mem_cons_of_mem _ hx) hb)
    by_cases hbr : isLineBreakChar c
    · have hcn : c = '\n' := h c (List.mem_cons_self _ _) hbr
      subst hcn
      have hstrip : pyStrip (String.mk (('\n' :: acc).reverse))
          = pyStrip (String.mk acc.reverse) := by
        show String.mk (stripChars (String.mk (('\n' :: acc).reverse)).toList)
            = String.mk (stripChars (String.mk acc.reverse).toList)
        rw [show (String.mk (('\n' :: acc).reverse)).toList = ('\n' :: acc).reverse from rfl,
          show (String.mk acc.reverse).toList = acc.reverse from rfl,
          List.reverse_cons, stripChars_append_newline]
      have hf : fileLinesAux ('\n' :: cs) acc
          = String.mk (('\n' :: acc).reverse) :: fileLinesAux cs [] := rfl
      have hs : splitLinesAux ('\n' :: cs) acc
          = String.mk acc.reverse :: splitLinesAux cs [] := rfl
      rw [hf, hs]
      refine ⟨?_, ?_⟩
      · simp [hih1.1]
      · simp only [List.filter_cons, hstrip]
        by_cases hb : (pyStrip (String.mk acc.reverse) == "") = true
        · simp [hb, hih1.2]
        · simp [hb, hih1.2]
    · have hcn : ¬ c = '\n' := by
        intro hh
        subst hh
        exact hbr (by decide)
      simp only [fileLinesAux, splitLinesAux]
      rw [if_neg hcn, if_neg hbr]
      exact hih2

/-- The parseable file `"x\x0c= 1\n\x0c\n"` (form feed is whitespace to the
parser): `src.splitlines()` yields 4 lines, file iteration yields 2. -/
def c9Src : List Char :=
  "x\x0c= 1\n\x0c\n".toList

/-- C9 counterexample: on `c9Src` the program computes `LOC = 2` (over the 4
`splitlines` lines) and `BLK = 1` (over the 2 file-iteration lines), and
`LOC + BLK = 3` equals neither line total, so no reading of "the total number
of lines of the text" validates the claimed partition. -/
theorem loc_blank_claim_counterexample :
    (analyze_tree "t.py" c9Src [] emptyModuleTree).LOC = 2
    ∧ (analyze_tree "t.py" c9Src [] emptyModuleTree).BLK = 1
    ∧ (pySplitlines c9Src).length = 4
    ∧ (fileLines c9Src).length = 2
    ∧ (analyze_tree "t.py" c9Src [] emptyModuleTree).LOC
        + (analyze_tree "t.py" c9Src [] emptyModuleTree).BLK
        ≠ (pySplitlines c9Src).length
    ∧ (analyze_tree "t.py" c9Src [] emptyModuleTree).LOC
        + (analyze_tree "t.py" c9Src [] emptyModuleTree).BLK
        ≠ (fileLines c9Src).length := by
  refine ⟨by decide, by decide, by decide, by decide, by decide, by decide⟩

/-- C9 amended: for every text whose only line-break character is `\n` (no
vertical tab, form feed, file/group/record separator, NEL, or Unicode line
or paragraph separator), the two decompositions coincide and every line is
counted exactly once: `LOC + BLK` equals the number of lines of the text. -/
theorem loc_plus_blank_eq_total_lines (path : String) (src : List Char)
    (toks : List Tok) (tree : PyNode)
    (h : ∀ c ∈ src, isLineBreakChar c → c = '\n') :
    (analyze_tree path src toks tree).LOC + (analyze_tree path src toks tree).BLK
        = (pySplitlines src).length
    ∧ (pySplitlines src).length = (fileLines src).length := by
  have hcorr := fileLinesAux_matches_splitLinesAux src [] h
  constructor
  · show loc_count (pySplitlines src)
        + (count_comments_and_blanks toks (fileLines src)).2
        = (pySplitlines src).length
    simp only [loc_count, count_comments_and_blanks]
    rw [foldl_count_ite]
    have hblk : ((fileLines src).filter (fun l => pyStrip l == "")).length
        = ((pySplitlines src).filter (fun l => pyStrip l == "")).length := hcorr.2
    rw [Nat.zero_add, hblk]
    exact filter_length_partition (pySplitlines src) (fun l => pyStrip l == "")
  · exact hcorr.1.symm

/-- Witness for the amended C9 at the text `"x = 1\n\n"`: one code line and
one blank line, two lines in total under both decompositions. -/
theorem loc_plus_blank_witness :
    ("x = 1\n\n".toList.all (fun c => !(isLineBreakChar c) || c == '\n') = true)
    ∧ (analyze_tree "w.py" "x = 1\n\n".toList [] emptyModuleTree).LOC
        + (analyze_tree "w.py" "x = 1\n\n".toList [] emptyModuleTree).BLK
        = (pySplitlines "x = 1\n\n".toList).length
    ∧ (pySplitlines "x = 1\n\n".toList).length = (fileLines "x = 1\n\n".toList).length :=
  ⟨by decide,
   (loc_plus_blank_eq_total_lines "w.py" ("x = 1\n\n".toList) [] emptyModuleTree
      (by decide)).1,
   (loc_plus_blank_eq_total_lines "w.py" ("x = 1\n\n".toList) [] emptyModuleTree
      (by decide)).2⟩

/-- C2 counterexample: in `methodCallTree` the only function definition is the
method `C.m`, not a module-scope function, yet the bare-name call `m()` is
classified internal by the code (the claim says it must be external). -/
theorem call_classification_claim_counterexample :
    (count_internal_external methodCallTree).1 = 1
    ∧ claimInternalCount methodCallTree = 0
    ∧ moduleScopeFuncNames methodCallTree = [] := by
  refine ⟨by decide, by decide, by decide⟩

/-- C2 amended: a call is internal exactly when its callee is a bare name
matching the name of a function definition found anywhere in the file
(module scope, nested, or method); every other call is external. -/
theorem call_classification_any_def_name (tree : PyNode) :
    count_internal_external tree = (specInternalCount tree, specExternalCount tree) := by
  simp only [count_internal_external]
  rw [foldl_classify]
  simp [specInternalCount, specExternalCount]

/-- C4 counterexample: `def f(): pass` gives `function_count = 1` but
`avg_params_per_function = 0.0`, refuting the claimed "exactly when". -/
theorem apf_zero_with_function_present :
    (analyze_tree "f.py" [] [] oneParamlessFuncTree).NOF = 1
    ∧ (analyze_tree "f.py" [] [] oneParamlessFuncTree).APF = 0 := by
  constructor
  · decide
  · show round2 (avg_params oneParamlessFuncTree) = 0
    have h1 : n_funcs oneParamlessFuncTree = 1 := by decide
    have h2 : params_sum oneParamlessFuncTree = 0 := by decide
    rw [avg_params, h1, h2]
    norm_num [round2_zero]

/-- C4 amended: if `function_count = 0` then `avg_params_per_function = 0.0`,
and if `class_count = 0` then `avg_methods_per_class = 0.0` (the converses
fail when all functions are parameterless, resp. all classes methodless). -/
theorem avg_fields_zero_when_counts_zero (path : String) (src : List Char)
    (toks : List Tok) (tree : PyNode) :
    ((analyze_tree path src toks tree).NOF = 0
        → (analyze_tree path src toks tree).APF = 0)
    ∧ ((analyze_tree path src toks tree).NOC = 0
        → (analyze_tree path src toks tree).AMC = 0) := by
  constructor
  · intro h
    show round2 (avg_params tree) = 0
    have h' : n_funcs tree = 0 := h
    rw [avg_params, h']
    simpa using round2_zero
  · intro h
    show round2 (avg_methods tree) = 0
    have h' : n_classes tree = 0 := h
    rw [avg_methods, h']
    simpa using round2_zero

/-- Witness for the amended C4 at the empty module. -/
theorem avg_fields_zero_witness :
    (analyze_tree "e.py" [] [] emptyModuleTree).NOF = 0
    ∧ (analyze_tree "e.py" [] [] emptyModuleTree).APF = 0
    ∧ (analyze_tree "e.py" [] [] emptyModuleTree).NOC = 0
    ∧ (analyze_tree "e.py" [] [] emptyModuleTree).AMC = 0 :=
  ⟨by decide,
   (avg_fields_zero_when_counts_zero "e.py" [] [] emptyModuleTree).1 (by decide),
   by decide,
   (avg_fields_zero_when_counts_zero "e.py" [] [] emptyModuleTree).2 (by decide)⟩

/-- C8: `function_count` and `class_count` are invariant under any permutation
of the top-level statements of the module. -/
theorem counts_invariant_under_reordering (path : String) (src : List Char)
    (toks : List Tok) (body body' : List PyNode) (h : body.Perm body') :
    (analyze_tree path src toks (PyNode.mk .module body)).NOF
        = (analyze_tree path src toks (PyNode.mk .module body')).NOF
    ∧ (analyze_tree path src toks (PyNode.mk .module body)).NOC
        = (analyze_tree path src toks (PyNode.mk .module body')).NOC := by
  constructor
  · show n_funcs _ = n_funcs _
    simp only [n_funcs, walkFuncs]
    exact walkFilter_module_perm (fun n => n.isFuncDef) Kind.module
      (fun _ _ => rfl) body body' h
  · show n_classes _ = n_classes _
    simp only [n_classes, walkClasses]
    exact walkFilter_module_perm (fun n => n.isClassDef) Kind.module
      (fun _ _ => rfl) body body' h

/-- A two-statement module body and its transposition. -/
def c8Body : List PyNode :=
  [PyNode.mk (.functionDef "f" []) [PyNode.mk .passStmt []], PyNode.mk (.classDef "C") []]

/-- The transposed body. -/
def c8BodySwapped : List PyNode :=
  [PyNode.mk (.classDef "C") [], PyNode.mk (.functionDef "f" []) [PyNode.mk .passStmt []]]

/-- Witness for C8 at a concrete transposition. -/
theorem counts_invariant_witness :
    c8Body.Perm c8BodySwapped
    ∧ (analyze_tree "p.py" [] [] (PyNode.mk .module c8Body)).NOF
        = (analyze_tree "p.py" [] [] (PyNode.mk .module c8BodySwapped)).NOF
    ∧ (analyze_tree "p.py" [] [] (PyNode.mk .module c8Body)).NOC
        = (analyze_tree "p.py" [] [] (PyNode.mk .module c8BodySwapped)).NOC :=
  ⟨List.Perm.swap _ _ _,
   (counts_invariant_under_reordering "p.py" [] [] c8Body c8BodySwapped
      (List.Perm.swap _ _ _)).1,
   (counts_invariant_under_reordering "p.py" [] [] c8Body c8BodySwapped
      (List.Perm.swap _ _ _)).2⟩

/-- C10: an `async def` node is not collected as a function (so it joins
neither `function_count`, nor the parameter sum, nor the internal-name set),
it is not counted as a method of its enclosing class, and a module consisting
only of `async def` definitions has `function_count` 0 and
`avg_params_per_function` 0.0. -/
theorem asyncdef_never_counted :
    (∀ nm ps b, walkFuncs (PyNode.mk (.asyncFunctionDef nm ps) b)
        = (walkList b).filter (fun n => n.isFuncDef))
    ∧ (∀ nm ps b rest cname,
        methodCount (PyNode.mk (.classDef cname)
            (PyNode.mk (.asyncFunctionDef nm ps) b :: rest))
          = methodCount (PyNode.mk (.classDef cname) rest))
    ∧ (∀ nm ps b, definedFuncNames (PyNode.mk (.asyncFunctionDef nm ps) b)
        = ((walkList b).filter (fun n => n.isFuncDef)).filterMap (fun f => f.defName))
    ∧ ∀ (path : String) (src : List Char) (toks : List Tok)
        (ds : List (String × List String)),
        (analyze_tree path src toks (PyNode.mk .module (ds.map (fun d =>
            PyNode.mk (.asyncFunctionDef d.1 d.2) [PyNode.mk .passStmt []])))).NOF = 0
        ∧ (analyze_tree path src toks (PyNode.mk .module (ds.map (fun d =>
            PyNode.mk (.asyncFunctionDef d.1 d.2) [PyNode.mk .passStmt []])))).APF = 0 := by
  have hkey : ∀ (ds : List (String × List String)),
      (walkList (ds.map (fun d =>
          PyNode.mk (.asyncFunctionDef d.1 d.2) [PyNode.mk .passStmt []]))).filter
        (fun n => n.isFuncDef) = [] := by
    intro ds
    induction ds with
    | nil => rfl
    | cons d ds ih =>
      rw [List.map_cons]
      show List.filter _ (walk _ ++ walkList _) = []
      rw [List.filter_append, ih, List.append_nil]
      rfl
  refine ⟨?_, ?_, ?_, ?_⟩
  · intro nm ps b
    have hfalse : PyNode.isFuncDef (PyNode.mk (.asyncFunctionDef nm ps) b) = false := rfl
    simp [walkFuncs, walk, List.filter_cons, hfalse]
  · intro nm ps b rest cname
    have hfalse : PyNode.isFuncDef (PyNode.mk (.asyncFunctionDef nm ps) b) = false := rfl
    simp [methodCount, PyNode.children, hfalse]
  · intro nm ps b
    have hfalse : PyNode.isFuncDef (PyNode.mk (.asyncFunctionDef nm ps) b) = false := rfl
    simp [definedFuncNames, walkFuncs, walk, List.filter_cons, hfalse]
  · intro path src toks ds
    have h0 : n_funcs (PyNode.mk .module (ds.map (fun d =>
        PyNode.mk (.asyncFunctionDef d.1 d.2) [PyNode.mk .passStmt []]))) = 0 := by
      show (List.filter (fun n => n.isFuncDef) (walkList (ds.map (fun d =>
          PyNode.mk (.asyncFunctionDef d.1 d.2) [PyNode.mk .passStmt []])))).length = 0
      rw [hkey ds]
      rfl
    constructor
    · exact h0
    · show round2 (avg_params _) = 0
      rw [avg_params, h0]
      simpa using round2_zero

/-- C1 counterexample: with the unparseable `bad.py` listed before the
parseable `good.py`, the scan yields no record at all — in particular none
for the parseable file — because the parse failure propagates out of the
generator. -/
theorem scan_directory_claim_counterexample :
    (scan_directory [fileBad, fileGood]).1 = []
    ∧ (scan_directory [fileBad, fileGood]).2 = some "SyntaxError"
    ∧ fileGood.parsed.isSome = true
    ∧ endswith fileGood.name ".py" = true := by
  refine ⟨by decide, by decide, rfl, by decide⟩

/-- C1 amended: a parse failure on one file aborts the batch: `scan_directory`
yields records exactly for the `.py` files preceding the first unparseable
`.py` file, and the `SyntaxError` propagates; the remaining files are never
analyzed. -/
theorem scan_directory_stops_at_first_failure (files : List PyFile) :
    scan_directory files = scanUpToFirstFailure files := by
  induction files with
  | nil => rfl
  | cons f rest ih =>
    by_cases hpy : endswith f.name ".py"
    · cases hp : f.parsed with
      | none =>
        simp [scan_directory, scanUpToFirstFailure, analyze_file, hpy, hp,
          List.filter_cons]
      | some t =>
        simp only [scan_directory, scanUpToFirstFailure, analyze_file, hpy, hp,
          List.filter_cons, if_pos, ih, List.takeWhile_cons, List.dropWhile_cons,
          Option.isSome_some, Except.toOption, List.filterMap_cons]
    · simp [scan_directory, scanUpToFirstFailure, hpy, List.filter_cons, ih]

/-- Every record of the builder carries `BUG = 0`; re-labeling such rows with
`BUG := 0` is the identity. -/
theorem relabel_zero_id (rows : List Record) (h : ∀ r ∈ rows, r.BUG = 0) :
    rows.map (fun r => { r with BUG := 0 }) = rows := by
  induction rows with
  | nil => rfl
  | cons r rs ih =>
    have hr : r.BUG = 0 := h r (List.mem_cons_self _ _)
    have hrs := ih (fun x hx => h x (List.mem_cons_of_mem _ hx))
    rw [List.map_cons, hrs]
    cases r
    simp_all

/-- C6: labeling rows (all created with `BUG = 0`) against the buggy-file list
sets `BUG = 1` exactly on the rows whose `FILE` equals one of the full paths
`local_repo_path ++ buggy_file`, leaves `BUG = 0` on every other row, and
labeling twice with the same list equals labeling once. -/
theorem labeling_matches_full_path_set (repo : String) (rows : List Record)
    (buggy_files : List String) (h : ∀ r ∈ rows, r.BUG = 0) :
    extract_labeling repo rows buggy_files
        = rows.map (fun r =>
            { r with BUG :=
                if r.FILE ∈ buggy_files.map (fun b => repo ++ b) then 1 else 0 })
    ∧ extract_labeling repo (extract_labeling repo rows buggy_files) buggy_files
        = extract_labeling repo rows buggy_files := by
  constructor
  · cases hb : buggy_files with
    | nil =>
      simpa [extract_labeling, labelLoop] using (relabel_zero_id rows h).symm
    | cons b bs =>
      simp only [extract_labeling]
      rw [labelLoop_ne_nil repo (b :: bs) [] rows (by simp)]
      simp [applyLabel]
  · cases hb : buggy_files with
    | nil => rfl
    | cons b bs =>
      simp only [extract_labeling]
      rw [labelLoop_ne_nil repo (b :: bs) [] rows (by simp),
        labelLoop_ne_nil repo (b :: bs) [] _ (by simp),
        applyLabel_applyLabel]

/-- A record as the builder creates it, for the file `repo/a.py`. -/
def recA : Record :=
  { FILE := "repo/a.py", LOC := 0, COM := 0, BLK := 0, NOF := 0, NOC := 0, APF := 0,
    AMC := 0, NER := 0, NEH := 0, CYC := 1, MAD := 0, BUG := 0 }

/-- A record as the builder creates it, for the file `repo/b.py`. -/
def recB : Record :=
  { FILE := "repo/b.py", LOC := 0, COM := 0, BLK := 0, NOF := 0, NOC := 0, APF := 0,
    AMC := 0, NER := 0, NEH := 0, CYC := 1, MAD := 0, BUG := 0 }

/-- A record as the builder creates it, for the file `repo/c.py`. -/
def recC : Record :=
  { FILE := "repo/c.py", LOC := 0, COM := 0, BLK := 0, NOF := 0, NOC := 0, APF := 0,
    AMC := 0, NER := 0, NEH := 0, CYC := 1, MAD := 0, BUG := 0 }

/-- Witness for C6 on records `{A, B, C}` with buggy list `{b.py}`. -/
theorem labeling_matches_witness :
    ([recA, recB, recC].all (fun r => r.BUG == 0) = true)
    ∧ extract_labeling "repo/" [recA, recB, recC] ["b.py"]
        = [recA, recB, recC].map (fun r =>
            { r with BUG :=
                if r.FILE ∈ (["b.py"] : List String).map (fun b => "repo/" ++ b)
                then 1 else 0 })
    ∧ extract_labeling "repo/"
          (extract_labeling "repo/" [recA, recB, recC] ["b.py"]) ["b.py"]
        = extract_labeling "repo/" [recA, recB, recC] ["b.py"] :=
  ⟨by decide,
   (labeling_matches_full_path_set "repo/" [recA, recB, recC] ["b.py"] (by decide)).1,
   (labeling_matches_full_path_set "repo/" [recA, recB, recC] ["b.py"] (by decide)).2⟩
